import Mathlib

/-!
Verification of the IndexDub resumable dubbing pipeline
(`src/subtitle_parser.py`, `src/pipeline.py`, `src/audio_merger.py`,
`src/config.py`) against its natural-language specification.

Modelling conventions:
* Python `float` values are modelled as rationals (`ℚ`); the numeric
  literals of the source (`2.0`, `0.05`, `0.8`, `1.25`, …) are exact in
  both worlds.
* The file system is an explicit environment: a predicate
  `fileExists : String → Bool` plus a duration oracle, passed to every
  function that touches the disk in the source.
* Python truthiness of optional strings (`if seg.output_audio_path:`)
  is `none` ↦ false, `some ""` ↦ false, otherwise true (`strTruthy`).
* `None`-able fields become `Option`; fallible operations return
  `Option`/`Except`.
-/

/- Rational arithmetic is `@[irreducible]` in the library; make it
unfoldable here so that concrete instances of the model evaluate. -/
attribute [local semireducible] Rat.add Rat.sub Rat.mul Rat.inv Rat.ofScientific

/-- Python truthiness of an optional string: `None` and `""` are falsy. -/
def strTruthy : Option String → Bool
  | none => false
  | some s => s ≠ ""

/-- One subtitle utterance: `Segment` in `src/subtitle_parser.py`.
Field names and defaults follow the Python dataclass. -/
structure Segment where
  id : Nat
  start_time : ℚ
  end_time : ℚ
  duration : ℚ
  source_text : String
  target_text : String
  ref_audio_path : Option String := none
  output_audio_path : Option String := none
  actual_duration : Option ℚ := none
  status : String := "pending"
  error_msg : Option String := none
deriving DecidableEq, Repr

/-- JSON-style values appearing in the manifest dictionary form of a
`Segment` (`Segment.to_dict` emits ints, floats, strings and `null`). -/
inductive JVal where
  | jnull
  | jint (n : Nat)
  | jnum (q : ℚ)
  | jstr (s : String)
deriving DecidableEq, Repr

/-- Encoding of an optional string field for `to_dict`. -/
def jOptStr : Option String → JVal
  | none => JVal.jnull
  | some s => JVal.jstr s

/-- Encoding of an optional float field for `to_dict`. -/
def jOptNum : Option ℚ → JVal
  | none => JVal.jnull
  | some q => JVal.jnum q

/-- Lookup in a Python-style dict modelled as an association list. -/
def jlookup (d : List (String × JVal)) (k : String) : Option JVal :=
  (d.find? (fun p => p.1 = k)).map (fun p => p.2)

/-- `Segment.to_dict` from `src/subtitle_parser.py`: the eleven-field
manifest dictionary form. -/
def Segment.to_dict (s : Segment) : List (String × JVal) :=
  [ ("id", JVal.jint s.id),
    ("start_time", JVal.jnum s.start_time),
    ("end_time", JVal.jnum s.end_time),
    ("duration", JVal.jnum s.duration),
    ("source_text", JVal.jstr s.source_text),
    ("target_text", JVal.jstr s.target_text),
    ("ref_audio_path", jOptStr s.ref_audio_path),
    ("output_audio_path", jOptStr s.output_audio_path),
    ("actual_duration", jOptNum s.actual_duration),
    ("status", JVal.jstr s.status),
    ("error_msg", jOptStr s.error_msg) ]

/-- Decoder for an int-typed field. -/
def JVal.asInt : JVal → Option Nat
  | JVal.jint n => some n
  | _ => none

/-- Decoder for a float-typed field. -/
def JVal.asNum : JVal → Option ℚ
  | JVal.jnum q => some q
  | _ => none

/-- Decoder for a string-typed field. -/
def JVal.asStr : JVal → Option String
  | JVal.jstr s => some s
  | _ => none

/-- Decoder for an optional-string field. -/
def JVal.asOptStr : JVal → Option (Option String)
  | JVal.jnull => some none
  | JVal.jstr s => some (some s)
  | _ => none

/-- Decoder for an optional-float field. -/
def JVal.asOptNum : JVal → Option (Option ℚ)
  | JVal.jnull => some none
  | JVal.jnum q => some (some q)
  | _ => none

/-- `Segment.from_dict` from `src/subtitle_parser.py`: `cls(**data)`
reads each of the eleven keys back; a wrongly-typed or missing field is
a failure (`TypeError` in Python), hence `Option`. -/
def Segment.from_dict (d : List (String × JVal)) : Option Segment := do
  let id ← (jlookup d "id").bind JVal.asInt
  let start_time ← (jlookup d "start_time").bind JVal.asNum
  let end_time ← (jlookup d "end_time").bind JVal.asNum
  let duration ← (jlookup d "duration").bind JVal.asNum
  let source_text ← (jlookup d "source_text").bind JVal.asStr
  let target_text ← (jlookup d "target_text").bind JVal.asStr
  let ref_audio_path ← (jlookup d "ref_audio_path").bind JVal.asOptStr
  let output_audio_path ← (jlookup d "output_audio_path").bind JVal.asOptStr
  let actual_duration ← (jlookup d "actual_duration").bind JVal.asOptNum
  let status ← (jlookup d "status").bind JVal.asStr
  let error_msg ← (jlookup d "error_msg").bind JVal.asOptStr
  pure ⟨id, start_time, end_time, duration, source_text, target_text,
        ref_audio_path, output_audio_path, actual_duration, status, error_msg⟩

/-- C10: for every `Segment` value `s`, `Segment.from_dict (s.to_dict) = s`:
serialization to the manifest dictionary form and deserialization back is a
lossless round trip over all eleven fields, including the mutable processing
fields and `None` values. -/
theorem segment_from_dict_to_dict (s : Segment) :
    Segment.from_dict s.to_dict = some s := by
  rcases s with ⟨id, st, et, du, src, tgt, ref, out, ad, status, err⟩
  cases ref <;> cases out <;> cases ad <;> cases err <;> rfl

/-! ## Chinese numeral reading (`SubtitleParser._int_to_cn` and friends) -/

/-- The digit table `'零一二三四五六七八九'` indexed in `_digits_to_cn`
and `_int_to_cn` (`d[k]`; the source only ever indexes with `k ≤ 9`). -/
def cnDigit : Nat → Char
  | 0 => '零' | 1 => '一' | 2 => '二' | 3 => '三' | 4 => '四'
  | 5 => '五' | 6 => '六' | 7 => '七' | 8 => '八' | _ => '九'

/-- Conditional internal `'零'` emitted by `_int_to_cn` after a skipped
place-value group. -/
def zeroIf (b : Prop) [Decidable b] : List Char := if b then ['零'] else []

/-- Thousands-and-below tail of `_int_to_cn` (the `千`/`百`/`十`/units
sections).  The source mutates `n` (`n %= 1000`, …) only under each
guard; since `x % m = x` for `x < m` the unconditional `%` used here is
the same value.  `pre` records whether `result` was nonempty when this
tail starts (the 亿/万 sections already emitted something): the source's
bare-`十` rule `n // 10 == 1 and not result` inspects the whole string
built so far, which is empty iff `pre = false` and the `千`/`百`
sections here emitted nothing. -/
def cnLow (m : Nat) (pre : Bool) : List Char :=
  (if 1000 ≤ m then
      [cnDigit (m / 1000), '千'] ++ zeroIf (0 < m % 1000 ∧ m % 1000 < 100)
    else [])
  ++ (if 100 ≤ m % 1000 then
      [cnDigit (m % 1000 / 100), '百'] ++ zeroIf (0 < m % 100 ∧ m % 100 < 10)
    else [])
  ++ (if 10 ≤ m % 100 then
      (if m % 100 / 10 = 1 ∧ pre = false ∧ ¬ 1000 ≤ m ∧ ¬ 100 ≤ m % 1000 then
        ['十']
      else [cnDigit (m % 100 / 10), '十'])
    else [])
  ++ (if 0 < m % 10 then [cnDigit (m % 10)] else [])

/-- `_int_to_cn` from `src/subtitle_parser.py`: place-value Chinese
reading of a natural number.  As in `cnLow`, the guarded mutations
`n %= 10**8` and `n %= 10**4` of the source are rendered as
unconditional `%` (the identity below the modulus). -/
def intToCn (n : Nat) : List Char :=
  if _h0 : n = 0 then ['零']
  else
    let s1 : List Char :=
      if _h8 : 100000000 ≤ n then
        intToCn (n / 100000000) ++ ['亿'] ++
          zeroIf (0 < n % 100000000 ∧ n % 100000000 < 10000000)
      else []
    let n1 := n % 100000000
    let s2 : List Char := s1 ++
      (if _h4 : 10000 ≤ n1 then
        intToCn (n1 / 10000) ++ ['万'] ++
          zeroIf (0 < n1 % 10000 ∧ n1 % 10000 < 1000)
      else [])
    s2 ++ cnLow (n1 % 10000) (decide (s2 ≠ []))
termination_by n
decreasing_by
  · omega
  · omega

/-- State of the place-value evaluator used to state correctness of
`intToCn`: `acc` holds closed 万/亿 sections, `sec` the open section,
`num` the pending digit. -/
structure CnState where
  acc : Nat
  sec : Nat
  num : Nat
deriving DecidableEq, Repr

/-- Value of a digit character of the table `cnDigit`. -/
def cnDigitVal (c : Char) : Nat :=
  if c = '一' then 1 else if c = '二' then 2 else if c = '三' then 3
  else if c = '四' then 4 else if c = '五' then 5 else if c = '六' then 6
  else if c = '七' then 7 else if c = '八' then 8 else if c = '九' then 9
  else 0

/-- One step of the standard place-value evaluation of a Chinese
numeral: `十/百/千` scale the pending digit into the open section,
`万/亿` close a section, `零` is skipped. -/
def cnStep (st : CnState) (c : Char) : CnState :=
  if c = '零' then st
  else if c = '十' then
    ⟨st.acc, st.sec + (if st.num = 0 then 1 else st.num) * 10, 0⟩
  else if c = '百' then ⟨st.acc, st.sec + st.num * 100, 0⟩
  else if c = '千' then ⟨st.acc, st.sec + st.num * 1000, 0⟩
  else if c = '万' then ⟨st.acc + (st.sec + st.num) * 10000, 0, 0⟩
  else if c = '亿' then ⟨(st.acc + st.sec + st.num) * 100000000, 0, 0⟩
  else ⟨st.acc, st.sec, cnDigitVal c⟩

/-- Run the evaluator over a string. -/
def cnRun (st : CnState) (s : List Char) : CnState := s.foldl cnStep st

/-- Numeric value of a Chinese place-value numeral. -/
def cnVal (s : List Char) : Nat :=
  let st := cnRun ⟨0, 0, 0⟩ s
  st.acc + st.sec + st.num


lemma cnRun_nil (st : CnState) : cnRun st [] = st := rfl

lemma cnRun_cons (st : CnState) (c : Char) (s : List Char) :
    cnRun st (c :: s) = cnRun (cnStep st c) s := rfl

lemma cnRun_append (st : CnState) (xs ys : List Char) :
    cnRun st (xs ++ ys) = cnRun (cnRun st xs) ys := by
  simp [cnRun, List.foldl_append]

lemma cnRun_zeroIf (st : CnState) (b : Prop) [Decidable b] :
    cnRun st (zeroIf b) = st := by
  unfold zeroIf
  split <;> rfl

lemma cnStep_digit (x y z d : Nat) (h1 : 1 ≤ d) (h2 : d ≤ 9) :
    cnStep ⟨x, y, z⟩ (cnDigit d) = ⟨x, y, d⟩ := by
  interval_cases d <;> rfl

lemma cnStep_shi (x y z : Nat) :
    cnStep ⟨x, y, z⟩ '十' = ⟨x, y + (if z = 0 then 1 else z) * 10, 0⟩ := rfl

lemma cnStep_bai (x y z : Nat) :
    cnStep ⟨x, y, z⟩ '百' = ⟨x, y + z * 100, 0⟩ := rfl

lemma cnStep_qian (x y z : Nat) :
    cnStep ⟨x, y, z⟩ '千' = ⟨x, y + z * 1000, 0⟩ := rfl

lemma cnStep_wan (x y z : Nat) :
    cnStep ⟨x, y, z⟩ '万' = ⟨x + (y + z) * 10000, 0, 0⟩ := rfl

lemma cnStep_yi100m (x y z : Nat) :
    cnStep ⟨x, y, z⟩ '亿' = ⟨(x + y + z) * 100000000, 0, 0⟩ := rfl

lemma cnRun_lowQian (a m : Nat) (hm : m < 10000) :
    cnRun ⟨a, 0, 0⟩
      (if 1000 ≤ m then
        [cnDigit (m / 1000), '千'] ++ zeroIf (0 < m % 1000 ∧ m % 1000 < 100)
      else []) = ⟨a, m - m % 1000, 0⟩ := by
  split
  · rw [show ([cnDigit (m / 1000), '千'] : List Char) ++
        zeroIf (0 < m % 1000 ∧ m % 1000 < 100) =
        cnDigit (m / 1000) :: '千' :: zeroIf (0 < m % 1000 ∧ m % 1000 < 100) from rfl,
      cnRun_cons, cnRun_cons, cnRun_zeroIf,
      cnStep_digit _ _ _ _ (by omega) (by omega), cnStep_qian]
    congr 1
    omega
  · rw [cnRun_nil]
    congr 1
    omega

lemma cnRun_lowBai (a s m : Nat) (_hm : m < 10000) :
    cnRun ⟨a, s, 0⟩
      (if 100 ≤ m % 1000 then
        [cnDigit (m % 1000 / 100), '百'] ++ zeroIf (0 < m % 100 ∧ m % 100 < 10)
      else []) = ⟨a, s + (m % 1000 - m % 100), 0⟩ := by
  split
  · rw [show ([cnDigit (m % 1000 / 100), '百'] : List Char) ++
        zeroIf (0 < m % 100 ∧ m % 100 < 10) =
        cnDigit (m % 1000 / 100) :: '百' :: zeroIf (0 < m % 100 ∧ m % 100 < 10) from rfl,
      cnRun_cons, cnRun_cons, cnRun_zeroIf,
      cnStep_digit _ _ _ _ (by omega) (by omega), cnStep_bai]
    congr 1
    omega
  · rw [cnRun_nil]
    congr 1
    omega

lemma cnRun_lowShi (a s m : Nat) (pre : Bool) (_hm : m < 10000) :
    cnRun ⟨a, s, 0⟩
      (if 10 ≤ m % 100 then
        (if m % 100 / 10 = 1 ∧ pre = false ∧ ¬ 1000 ≤ m ∧ ¬ 100 ≤ m % 1000 then
          ['十']
        else [cnDigit (m % 100 / 10), '十'])
      else []) = ⟨a, s + (m % 100 - m % 10), 0⟩ := by
  split
  · split
    · rename_i h hb
      rw [show (['十'] : List Char) = '十' :: [] from rfl, cnRun_cons, cnRun_nil, cnStep_shi,
        if_pos rfl]
      congr 1
      omega
    · rw [show ([cnDigit (m % 100 / 10), '十'] : List Char) =
          cnDigit (m % 100 / 10) :: '十' :: [] from rfl,
        cnRun_cons, cnRun_cons, cnRun_nil,
        cnStep_digit _ _ _ _ (by omega) (by omega), cnStep_shi]
      rw [if_neg (by omega)]
      congr 1
      omega
  · rw [cnRun_nil]
    congr 1
    omega

lemma cnRun_lowUnit (a s m : Nat) :
    cnRun ⟨a, s, 0⟩ (if 0 < m % 10 then [cnDigit (m % 10)] else []) =
      ⟨a, s, m % 10⟩ := by
  split
  · rw [show ([cnDigit (m % 10)] : List Char) = cnDigit (m % 10) :: [] from rfl,
      cnRun_cons, cnRun_nil, cnStep_digit _ _ _ _ (by omega) (by omega)]
  · rw [cnRun_nil]
    congr 1
    omega

/-- Running the evaluator over the low (thousands-and-below) tail adds
exactly its value `m` to the open section, for any starting `acc`. -/
lemma cnRun_cnLow (a m : Nat) (pre : Bool) (hm : m < 10000) :
    cnRun ⟨a, 0, 0⟩ (cnLow m pre) = ⟨a, m - m % 10, m % 10⟩ := by
  unfold cnLow
  rw [cnRun_append, cnRun_append, cnRun_append,
    cnRun_lowQian a m hm, cnRun_lowBai a _ m hm, cnRun_lowShi a _ m pre hm,
    cnRun_lowUnit]
  congr 1
  omega

/-- Unfolding of `intToCn` for positive `n`, with the two high sections
and the low tail written out. -/
lemma intToCn_eq (n : Nat) (h0 : ¬ n = 0) :
    intToCn n =
      ((if 100000000 ≤ n then
          intToCn (n / 100000000) ++ ['亿'] ++
            zeroIf (0 < n % 100000000 ∧ n % 100000000 < 10000000)
        else []) ++
        (if 10000 ≤ n % 100000000 then
          intToCn (n % 100000000 / 10000) ++ ['万'] ++
            zeroIf (0 < n % 100000000 % 10000 ∧ n % 100000000 % 10000 < 1000)
        else [])) ++
      cnLow (n % 100000000 % 10000)
        (decide (((if 100000000 ≤ n then
            intToCn (n / 100000000) ++ ['亿'] ++
              zeroIf (0 < n % 100000000 ∧ n % 100000000 < 10000000)
          else []) ++
          (if 10000 ≤ n % 100000000 then
            intToCn (n % 100000000 / 10000) ++ ['万'] ++
              zeroIf (0 < n % 100000000 % 10000 ∧ n % 100000000 % 10000 < 1000)
          else [])) ≠ [])) := by
  rw [intToCn, dif_neg h0]
  rfl

/-- For `0 < B < 10000` (the 万-section arguments), `intToCn` is just
the low tail with an empty prefix. -/
lemma intToCn_below (B : Nat) (hB0 : B ≠ 0) (hB : B < 10000) :
    intToCn B = cnLow B false := by
  rw [intToCn_eq B hB0,
    if_neg (by omega : ¬ 100000000 ≤ B),
    if_neg (by omega : ¬ 10000 ≤ B % 100000000)]
  rw [show B % 100000000 % 10000 = B by omega]
  rfl

lemma cnTotal_mk (x y z : Nat) :
    (⟨x, y, z⟩ : CnState).acc + (⟨x, y, z⟩ : CnState).sec +
      (⟨x, y, z⟩ : CnState).num = x + y + z := rfl

/-- Evaluator over an 亿-section `s ++ ['亿'] ++ zeroIf b`. -/
lemma cnRun_yiSection (x y z : Nat) (b : Prop) [Decidable b] (s : List Char)
    (h : cnRun ⟨0, 0, 0⟩ s = ⟨x, y, z⟩) :
    cnRun ⟨0, 0, 0⟩ (s ++ ['亿'] ++ zeroIf b) =
      ⟨(x + y + z) * 100000000, 0, 0⟩ := by
  rw [cnRun_append, cnRun_append, h, cnRun_zeroIf, cnRun_cons, cnRun_nil,
    cnStep_yi100m]

/-- Evaluator over a 万-section `intToCn B ++ ['万'] ++ zeroIf b` started
with accumulator `a`. -/
lemma cnRun_wanSection (a B : Nat) (b : Prop) [Decidable b]
    (hB0 : B ≠ 0) (hB : B < 10000) :
    cnRun ⟨a, 0, 0⟩ (intToCn B ++ ['万'] ++ zeroIf b) =
      ⟨a + B * 10000, 0, 0⟩ := by
  rw [cnRun_append, cnRun_append, intToCn_below B hB0 hB,
    cnRun_cnLow a B false hB, cnRun_zeroIf, cnRun_cons, cnRun_nil, cnStep_wan]
  simp only [CnState.mk.injEq, and_true]
  omega

/-- Running the evaluator over `intToCn n` from the initial state yields
total value `n`: the place-value reading is value-faithful for every
natural number. -/
lemma cnRun_intToCn (n : Nat) :
    (cnRun ⟨0, 0, 0⟩ (intToCn n)).acc + (cnRun ⟨0, 0, 0⟩ (intToCn n)).sec +
      (cnRun ⟨0, 0, 0⟩ (intToCn n)).num = n := by
  induction n using Nat.strong_induction_on with
  | _ n ih =>
    by_cases h0 : n = 0
    · subst h0
      rw [intToCn, dif_pos rfl]
      rfl
    · rw [intToCn_eq n h0, cnRun_append, cnRun_append]
      by_cases h8 : 100000000 ≤ n
      · have hAlt : n / 100000000 < n := by omega
        rcases hstA : cnRun ⟨0, 0, 0⟩ (intToCn (n / 100000000)) with ⟨x, y, z⟩
        have hxyz : x + y + z = n / 100000000 := by
          have h := ih (n / 100000000) hAlt
          rw [hstA] at h
          exact h
        rw [if_pos h8, cnRun_yiSection x y z _ _ hstA]
        by_cases h4 : 10000 ≤ n % 100000000
        · rw [if_pos h4,
            cnRun_wanSection _ _ _ (by omega) (by omega),
            cnRun_cnLow _ _ _ (by omega), cnTotal_mk]
          omega
        · rw [if_neg h4, cnRun_nil, cnRun_cnLow _ _ _ (by omega), cnTotal_mk]
          omega
      · rw [if_neg h8, cnRun_nil]
        by_cases h4 : 10000 ≤ n % 100000000
        · rw [if_pos h4,
            cnRun_wanSection _ _ _ (by omega) (by omega),
            cnRun_cnLow _ _ _ (by omega), cnTotal_mk]
          omega
        · rw [if_neg h4, cnRun_nil, cnRun_cnLow _ _ _ (by omega), cnTotal_mk]
          omega

/-- The place-value reading of `_int_to_cn` evaluates back to its input,
for every natural number. -/
lemma cnVal_intToCn (n : Nat) : cnVal (intToCn n) = n := by
  have h := cnRun_intToCn n
  unfold cnVal
  exact h

/-! ## Numeral substitution passes (`SubtitleParser._convert_numbers`) -/

/-- Numeric value of an ASCII digit character (`int(c)`). -/
def charDigitVal (c : Char) : Nat := c.toNat - '0'.toNat

/-- `_digits_to_cn`: digit-by-digit reading (`2025 → 二零二五`). -/
def digitsToCn (s : List Char) : List Char :=
  s.map (fun c => cnDigit (charDigitVal c))

/-- `int(s)` on a digit string. -/
def digitsToNat (s : List Char) : Nat :=
  s.foldl (fun a c => a * 10 + charDigitVal c) 0

/-- `_num_to_cn`: place-value reading, with `整数点逐位` handling of a
decimal point (`s.split('.', 1)` keeps everything after the first dot
in the decimal part). -/
def numToCn (s : List Char) : List Char :=
  if '.' ∈ s then
    intToCn (digitsToNat (s.takeWhile (fun c => c ≠ '.'))) ++
      '点' :: digitsToCn ((s.dropWhile (fun c => c ≠ '.')).tail)
  else intToCn (digitsToNat s)

/-- Pass 1 of `_convert_numbers`: `re.sub(r'(\d+\.?\d*)%', '百分之…')`.
Implemented as the `re.sub` scan itself: at each position try the
pattern (a maximal digit run, optionally a dot and a second maximal
run, then `%`); on success emit the replacement and resume after the
match, on failure emit one character and retry at the next position.
The recursion is on an explicit fuel (initialised to the string length
by `subPercent`) so that the function is structurally recursive; every
step consumes at least one character, so the fuel never runs out. -/
def subPercentGo : Nat → List Char → List Char
  | 0, l => l
  | _ + 1, [] => []
  | fuel + 1, c :: rest =>
    if c.isDigit then
      match (c :: rest).dropWhile Char.isDigit with
      | '%' :: r4 =>
        '百' :: '分' :: '之' ::
          (numToCn ((c :: rest).takeWhile Char.isDigit) ++ subPercentGo fuel r4)
      | '.' :: r2 =>
        match r2.dropWhile Char.isDigit with
        | '%' :: r4 =>
          '百' :: '分' :: '之' ::
            (numToCn ((c :: rest).takeWhile Char.isDigit ++
              '.' :: r2.takeWhile Char.isDigit) ++ subPercentGo fuel r4)
        | _ => c :: subPercentGo fuel rest
      | _ => c :: subPercentGo fuel rest
    else c :: subPercentGo fuel rest

/-- Pass 1 wrapper. -/
def subPercent (l : List Char) : List Char := subPercentGo l.length l

/-- Pass 2 of `_convert_numbers`: `re.sub(r'(\d{4})年', …)`: exactly
four digits immediately followed by `年` are read digit-by-digit. -/
def subYearGo : Nat → List Char → List Char
  | 0, l => l
  | _ + 1, [] => []
  | fuel + 1, c :: rest =>
    match c :: rest with
    | c1 :: c2 :: c3 :: c4 :: '年' :: r =>
      if c1.isDigit && c2.isDigit && c3.isDigit && c4.isDigit then
        digitsToCn [c1, c2, c3, c4] ++ '年' :: subYearGo fuel r
      else c1 :: subYearGo fuel (c2 :: c3 :: c4 :: '年' :: r)
    | _ => c :: subYearGo fuel rest

/-- Pass 2 wrapper. -/
def subYear (l : List Char) : List Char := subYearGo l.length l

/-- Pass 3 of `_convert_numbers`: `re.sub(r'\d{5,}', …)`: maximal digit
runs of length at least five are read digit-by-digit. -/
def subLongGo : Nat → List Char → List Char
  | 0, l => l
  | _ + 1, [] => []
  | fuel + 1, c :: rest =>
    if c.isDigit then
      if 5 ≤ ((c :: rest).takeWhile Char.isDigit).length then
        digitsToCn ((c :: rest).takeWhile Char.isDigit) ++
          subLongGo fuel ((c :: rest).dropWhile Char.isDigit)
      else c :: subLongGo fuel rest
    else c :: subLongGo fuel rest

/-- Pass 3 wrapper. -/
def subLong (l : List Char) : List Char := subLongGo l.length l

/-- Pass 4 of `_convert_numbers`: `re.sub(r'\d+\.?\d*', …)`: every
remaining numeric token (with optional decimal part) is read with the
place-value rules of `numToCn`. -/
def subNumGo : Nat → List Char → List Char
  | 0, l => l
  | _ + 1, [] => []
  | fuel + 1, c :: rest =>
    if c.isDigit then
      match (c :: rest).dropWhile Char.isDigit with
      | '.' :: r2 =>
        numToCn ((c :: rest).takeWhile Char.isDigit ++
            '.' :: r2.takeWhile Char.isDigit) ++
          subNumGo fuel (r2.dropWhile Char.isDigit)
      | r1 => numToCn ((c :: rest).takeWhile Char.isDigit) ++ subNumGo fuel r1
    else c :: subNumGo fuel rest

/-- Pass 4 wrapper. -/
def subNum (l : List Char) : List Char := subNumGo l.length l

/-- `_convert_numbers` from `src/subtitle_parser.py`: the four `re.sub`
passes applied in source order (percentages, then year patterns, then
long digit runs, then all remaining numeric tokens). -/
def convertNumbers (l : List Char) : List Char :=
  subNum (subLong (subYear (subPercent l)))

lemma intToCn_ne_nil (n : Nat) : intToCn n ≠ [] := by
  by_cases h : n = 0
  · subst h
    rw [intToCn, dif_pos rfl]
    simp
  · intro hnil
    have htot := cnRun_intToCn n
    rw [hnil, cnRun_nil] at htot
    simp only [cnTotal_mk] at htot
    omega

lemma numToCn_ne_nil (s : List Char) : numToCn s ≠ [] := by
  unfold numToCn
  split
  · simp [intToCn_ne_nil]
  · exact intToCn_ne_nil _

lemma digitsToCn_ne_nil (s : List Char) (h : s ≠ []) : digitsToCn s ≠ [] := by
  unfold digitsToCn
  simpa using h

lemma subPercentGo_ne_nil (fuel : Nat) (l : List Char) (hl : l ≠ []) :
    subPercentGo fuel l ≠ [] := by
  match fuel, l with
  | 0, l => exact hl
  | _ + 1, [] => exact absurd rfl hl
  | fuel + 1, c :: rest =>
    simp only [subPercentGo]
    split
    · split
      · simp
      · split <;> simp
      · simp
    · simp

lemma subYearGo_ne_nil (fuel : Nat) (l : List Char) (hl : l ≠ []) :
    subYearGo fuel l ≠ [] := by
  match fuel, l with
  | 0, l => exact hl
  | _ + 1, [] => exact absurd rfl hl
  | fuel + 1, c :: rest =>
    simp only [subYearGo]
    split
    · split <;> simp [digitsToCn]
    · simp

lemma subLongGo_ne_nil (fuel : Nat) (l : List Char) (hl : l ≠ []) :
    subLongGo fuel l ≠ [] := by
  match fuel, l with
  | 0, l => exact hl
  | _ + 1, [] => exact absurd rfl hl
  | fuel + 1, c :: rest =>
    simp only [subLongGo]
    split
    · split
      · intro hnil
        rcases List.append_eq_nil.mp hnil with ⟨h1, -⟩
        rename_i hdig hlen
        simp only [digitsToCn, List.map_eq_nil_iff] at h1
        rw [h1] at hlen
        simp at hlen
      · simp
    · simp

lemma subNumGo_ne_nil (fuel : Nat) (l : List Char) (hl : l ≠ []) :
    subNumGo fuel l ≠ [] := by
  match fuel, l with
  | 0, l => exact hl
  | _ + 1, [] => exact absurd rfl hl
  | fuel + 1, c :: rest =>
    simp only [subNumGo]
    split
    · split <;>
        · intro hnil
          rcases List.append_eq_nil.mp hnil with ⟨h1, -⟩
          exact numToCn_ne_nil _ h1
    · simp

/-- `_convert_numbers` maps nonempty text to nonempty text: every
replacement string is nonempty and unmatched characters pass through. -/
lemma convertNumbers_ne_nil (l : List Char) (hl : l ≠ []) :
    convertNumbers l ≠ [] := by
  unfold convertNumbers subNum subLong subYear subPercent
  exact subNumGo_ne_nil _ _ (subLongGo_ne_nil _ _ (subYearGo_ne_nil _ _
    (subPercentGo_ne_nil _ _ hl)))

lemma intToCn_100001 : intToCn 100001 = ['十', '万', '零', '一'] := by
  rw [intToCn]
  norm_num [cnLow, zeroIf, cnDigit]
  rw [intToCn]
  norm_num [cnLow, zeroIf, cnDigit]

/-- C8: numeral normalization on accepted target text rewrites, in
order, percentages (`subPercent`), 4-digit year+suffix patterns
(`subYear`), digit runs of length at least 5 (`subLong`), and all
remaining numeric tokens (`subNum`); the place-value reading
`intToCn` is value-correct for every natural number — its reading
evaluates back to the number under the standard place-value semantics
`cnVal` — and emits the single internal `零` where a place-value group
is skipped, e.g. `intToCn 100001 = 十万零一`. -/
theorem convert_numbers_place_value_correct :
    (∀ l : List Char,
      convertNumbers l = subNum (subLong (subYear (subPercent l)))) ∧
    (∀ n : Nat, cnVal (intToCn n) = n) ∧
    intToCn 100001 = ['十', '万', '零', '一'] :=
  ⟨fun _ => rfl, cnVal_intToCn, intToCn_100001⟩

/-! ## Subtitle extraction (`SubtitleParser.load` and helpers) -/

/-- Whitespace for Python `str.strip()` (the ASCII whitespace actually
occurring in subtitle text). -/
def isPySpace (c : Char) : Bool :=
  c = ' ' ∨ c = '\t' ∨ c = '\n' ∨ c = '\r' ∨ c = '\x0b' ∨ c = '\x0c'

/-- Python `str.strip()`. -/
def pyStrip (l : List Char) : List Char :=
  ((l.dropWhile isPySpace).reverse.dropWhile isPySpace).reverse

/-- Opening characters of `bracket_pattern`: `( [ { （ 【`. -/
def isOpenBracket (c : Char) : Bool :=
  c = '(' ∨ c = '[' ∨ c = '{' ∨ c = '（' ∨ c = '【'

/-- Closing characters of `bracket_pattern`: `) ] } ） 】`. -/
def isCloseBracket (c : Char) : Bool :=
  c = ')' ∨ c = ']' ∨ c = '}' ∨ c = '）' ∨ c = '】'

/-- Scan for the first closing bracket (the non-greedy `.*?[\)\]\}）】]`;
`.` does not cross a newline): `some r` is the text after it. -/
def afterClose : List Char → Option (List Char)
  | [] => none
  | c :: rest =>
    if isCloseBracket c then some rest
    else if c = '\n' then none
    else afterClose rest

/-- Scan for the next `♪` (the non-greedy `♪.*?♪`): `some r` is the
text after it. -/
def afterNote : List Char → Option (List Char)
  | [] => none
  | c :: rest =>
    if c = '♪' then some rest
    else if c = '\n' then none
    else afterNote rest

/-- The `re.sub` scan of `bracket_pattern.sub("", text)`: at each
position try, in alternation order, a bracketed span (any opener up to
the nearest closer), a `♪`-delimited span, then a bare run of `♪`; on a
match drop it and resume after it, otherwise keep one character and
retry at the next position.  Fuel-structural as in `subPercentGo`. -/
def cleanTextGo : Nat → List Char → List Char
  | 0, l => l
  | _ + 1, [] => []
  | fuel + 1, c :: rest =>
    if isOpenBracket c then
      match afterClose rest with
      | some r => cleanTextGo fuel r
      | none => c :: cleanTextGo fuel rest
    else if c = '♪' then
      match afterNote rest with
      | some r => cleanTextGo fuel r
      | none => cleanTextGo fuel (rest.dropWhile (fun x => x = '♪'))
    else c :: cleanTextGo fuel rest

/-- `_clean_text` from `src/subtitle_parser.py`: remove bracketed and
music-note spans, then strip. -/
def cleanText (l : List Char) : List Char := pyStrip (cleanTextGo l.length l)

/-- `chinese_pattern.search`: does the text contain a CJK unified
ideograph (`[一-鿿]`)? -/
def containsChinese (l : List Char) : Bool :=
  l.any (fun c => 0x4e00 ≤ c.toNat ∧ c.toNat ≤ 0x9fff)

/-- One timed cue as delivered by `pysubs2` after `subs.sort()`:
millisecond int timestamps and the event's `plaintext`. -/
structure Cue where
  startMs : Int
  endMs : Int
  text : List Char
deriving DecidableEq, Repr

/-- Arguments of `SubtitleParser.load`: `end_time = none` models the
`float('inf')` default; `max_segments` is `None` or an int (`some 0`
is falsy in the source's `if max_segments` test). -/
structure LoadParams where
  startTime : ℚ
  endTime : Option ℚ
  maxSegments : Option Nat
deriving DecidableEq, Repr

/-- The source's `if max_segments and len(segments) >= max_segments`. -/
def maxReached : Option Nat → Nat → Bool
  | none, _ => false
  | some n, len => n ≠ 0 ∧ n ≤ len

/-- The source's `if start >= end_time` against the optional window end. -/
def atWindowEnd : Option ℚ → ℚ → Bool
  | none, _ => false
  | some e, start => e ≤ start

/-- Dual-language classification of the source's inline branch: parts
of the cue (split on `\n`, stripped, cleaned, blanks dropped) are
joined into Chinese target text and non-Chinese source text. -/
def inlineParts (text : List Char) : List (List Char) :=
  ((text.splitOn '\n').map (fun pl =>
      cleanText (pyStrip (pl)))).filter (fun x => ¬ x = [])

/-- `' '.join(parts)`. -/
def joinSpace (parts : List (List Char)) : List Char :=
  List.intercalate [' '] parts

/-- Outcome of one iteration of the `while i < len(subs)` loop of
`SubtitleParser.load` for the cue at position `i`: hit the window end
(`break`), consume one or two cues without accepting (`continue`), or
accept a segment with the given source/target text and consume one or
two cues.  `two = true` is the source's `i += 2`. -/
inductive CueStep where
  | stop
  | skip (two : Bool)
  | emit (two : Bool) (src tgt : List Char)
deriving DecidableEq, Repr

/-- The branch structure of one loop iteration of `SubtitleParser.load`
(windowing, empty-text skip, the inline bilingual branch, the
next-cue pairing heuristic, and the unpaired fallback), as a pure
decision on the current cue and the remaining cues. -/
def cueStep (p : LoadParams) (cue : Cue) (rest : List Cue) : CueStep :=
  if (cue.startMs : ℚ) / 1000 < p.startTime then .skip false
  else if atWindowEnd p.endTime ((cue.startMs : ℚ) / 1000) then .stop
  else if pyStrip cue.text = [] then .skip false
  else if '\n' ∈ pyStrip cue.text then
    -- inline bilingual branch ("中文\N{\rEng}韩文")
    if pyStrip (joinSpace ((inlineParts (pyStrip cue.text)).filter
        containsChinese)) = [] then .skip false
    else
      .emit false
        (joinSpace ((inlineParts (pyStrip cue.text)).filter
          (fun x => ¬ containsChinese x)))
        (joinSpace ((inlineParts (pyStrip cue.text)).filter containsChinese))
  else
    match rest with
    | next :: _ =>
      if |(next.startMs : ℚ) / 1000 - (cue.startMs : ℚ) / 1000| < 1 / 100 ∧
          ¬ pyStrip next.text = [] then
        if ¬ containsChinese (cleanText (pyStrip cue.text)) ∧
            containsChinese (cleanText (pyStrip next.text)) then
          -- source ‖ target pair, consume both cues
          if pyStrip (cleanText (pyStrip next.text)) = [] then .skip true
          else .emit true (cleanText (pyStrip cue.text))
            (cleanText (pyStrip next.text))
        else if containsChinese (cleanText (pyStrip cue.text)) ∧
            ¬ containsChinese (cleanText (pyStrip next.text)) then
          if pyStrip (cleanText (pyStrip cue.text)) = [] then .skip true
          else .emit true (cleanText (pyStrip next.text))
            (cleanText (pyStrip cue.text))
        else if containsChinese (cleanText (pyStrip cue.text)) ∧
            containsChinese (cleanText (pyStrip next.text)) then
          -- two Chinese cues: keep the first, consume both
          if pyStrip (cleanText (pyStrip cue.text)) = [] then .skip true
          else .emit true [] (cleanText (pyStrip cue.text))
        else
          -- both non-Chinese: unpaired handling of the current cue
          if containsChinese (cleanText (pyStrip cue.text)) then
            if pyStrip (cleanText (pyStrip cue.text)) = [] then .skip false
            else .emit false [] (cleanText (pyStrip cue.text))
          else .skip false
      else
        if containsChinese (cleanText (pyStrip cue.text)) then
          if pyStrip (cleanText (pyStrip cue.text)) = [] then .skip false
          else .emit false [] (cleanText (pyStrip cue.text))
        else .skip false
    | [] =>
      if containsChinese (cleanText (pyStrip cue.text)) then
        if pyStrip (cleanText (pyStrip cue.text)) = [] then .skip false
        else .emit false [] (cleanText (pyStrip cue.text))
      else .skip false

/-- The worker loop of `SubtitleParser.load` (`while i < len(subs)`):
apply `cueStep` to the cue at the front, then stop, skip, or accept a
`Segment` built from that cue (checking the `max_segments` cap right
after appending, as the source does).  The recursion is on an explicit
fuel (initialised to the cue count by `load`); every iteration consumes
at least one cue, so the fuel never runs out. -/
def loadGo (p : LoadParams) : Nat → List Cue → Nat → List Segment → List Segment
  | 0, _, _, acc => acc.reverse
  | _ + 1, [], _, acc => acc.reverse
  | fuel + 1, cue :: rest, nextId, acc =>
    match cueStep p cue rest with
    | .stop => acc.reverse
    | .skip two => loadGo p fuel (if two then rest.tail else rest) nextId acc
    | .emit two src tgt =>
      if maxReached p.maxSegments
          (({ id := nextId, start_time := (cue.startMs : ℚ) / 1000,
              end_time := (cue.endMs : ℚ) / 1000,
              duration := (cue.endMs : ℚ) / 1000 - (cue.startMs : ℚ) / 1000,
              source_text := String.mk src,
              target_text := String.mk (convertNumbers tgt) } : Segment) ::
            acc).length then
        (({ id := nextId, start_time := (cue.startMs : ℚ) / 1000,
            end_time := (cue.endMs : ℚ) / 1000,
            duration := (cue.endMs : ℚ) / 1000 - (cue.startMs : ℚ) / 1000,
            source_text := String.mk src,
            target_text := String.mk (convertNumbers tgt) } : Segment) ::
          acc).reverse
      else
        loadGo p fuel (if two then rest.tail else rest) (nextId + 1)
          (({ id := nextId, start_time := (cue.startMs : ℚ) / 1000,
              end_time := (cue.endMs : ℚ) / 1000,
              duration := (cue.endMs : ℚ) / 1000 - (cue.startMs : ℚ) / 1000,
              source_text := String.mk src,
              target_text := String.mk (convertNumbers tgt) } : Segment) ::
            acc)

/-- `SubtitleParser.load` from `src/subtitle_parser.py`, over the cue
list that `pysubs2.load` + `subs.sort()` delivers. -/
def load (p : LoadParams) (cues : List Cue) : List Segment :=
  loadGo p cues.length cues 1 []

lemma pyStrip_nil : pyStrip [] = [] := rfl

lemma ne_nil_of_pyStrip_ne_nil (l : List Char) (h : ¬ pyStrip l = []) :
    l ≠ [] := fun he => h (by rw [he]; rfl)

lemma mk_convert_ne_empty (l : List Char) (h : l ≠ []) :
    String.mk (convertNumbers l) ≠ "" := by
  intro he
  have hdata : convertNumbers l = [] := by
    have := congrArg String.data he
    simpa using this
  exact convertNumbers_ne_nil l h hdata

set_option maxHeartbeats 1600000 in
/-- The text accepted by `cueStep` survived the source's
`if not target_text.strip(): continue` guard, so it is nonempty. -/
lemma cueStep_emit_ne_nil (p : LoadParams) (cue : Cue) (rest : List Cue)
    (two : Bool) (src tgt : List Char)
    (h : cueStep p cue rest = .emit two src tgt) : tgt ≠ [] := by
  unfold cueStep at h
  split at h
  · exact CueStep.noConfusion h
  · split at h
    · exact CueStep.noConfusion h
    · split at h
      · exact CueStep.noConfusion h
      · split at h
        · split at h
          · exact CueStep.noConfusion h
          · injection h with h1 h2 h3
            subst h3
            exact ne_nil_of_pyStrip_ne_nil _ (by assumption)
        · split at h
          · split at h
            · split at h
              · split at h
                · exact CueStep.noConfusion h
                · injection h with h1 h2 h3
                  subst h3
                  exact ne_nil_of_pyStrip_ne_nil _ (by assumption)
              · split at h
                · split at h
                  · exact CueStep.noConfusion h
                  · injection h with h1 h2 h3
                    subst h3
                    exact ne_nil_of_pyStrip_ne_nil _ (by assumption)
                · split at h
                  · split at h
                    · exact CueStep.noConfusion h
                    · injection h with h1 h2 h3
                      subst h3
                      exact ne_nil_of_pyStrip_ne_nil _ (by assumption)
                  · split at h
                    · split at h
                      · exact CueStep.noConfusion h
                      · injection h with h1 h2 h3
                        subst h3
                        exact ne_nil_of_pyStrip_ne_nil _ (by assumption)
                    · exact CueStep.noConfusion h
            · split at h
              · split at h
                · exact CueStep.noConfusion h
                · injection h with h1 h2 h3
                  subst h3
                  exact ne_nil_of_pyStrip_ne_nil _ (by assumption)
              · exact CueStep.noConfusion h
          · split at h
            · split at h
              · exact CueStep.noConfusion h
              · rcases h with ⟨-, -, rfl⟩
                exact ne_nil_of_pyStrip_ne_nil _ (by assumption)
            · exact CueStep.noConfusion h

/-- What extraction promises per accepted cue: the segment's times are
the cue's timestamps (milliseconds over 1000) and its target text is
nonempty. -/
def segFromCue (c : Cue) (s : Segment) : Prop :=
  s.start_time = (c.startMs : ℚ) / 1000 ∧ s.end_time = (c.endMs : ℚ) / 1000 ∧
    s.target_text ≠ ""

/-- Every segment produced by the extraction loop either was already in
the accumulator or originates in one of the remaining cues, with times
copied verbatim and a nonempty converted target text. -/
lemma loadGo_mem (p : LoadParams) :
    ∀ (fuel : Nat) (cues : List Cue) (nextId : Nat) (acc : List Segment)
      (s : Segment), s ∈ loadGo p fuel cues nextId acc →
      s ∈ acc ∨ ∃ c ∈ cues, segFromCue c s := by
  intro fuel
  induction fuel with
  | zero =>
    intro cues nextId acc s hmem
    exact Or.inl (List.mem_reverse.mp hmem)
  | succ fuel ih =>
    intro cues nextId acc s hmem
    cases cues with
    | nil => exact Or.inl (List.mem_reverse.mp hmem)
    | cons cue rest =>
      have hsub : ∀ (two : Bool) (c : Cue),
          c ∈ (if two then rest.tail else rest) → c ∈ cue :: rest := by
        intro two c hc
        cases two with
        | false => exact List.mem_cons_of_mem _ (by simpa using hc)
        | true =>
          exact List.mem_cons_of_mem _ (List.mem_of_mem_tail (by simpa using hc))
      unfold loadGo at hmem
      split at hmem
      · exact Or.inl (List.mem_reverse.mp hmem)
      · rcases ih _ _ _ _ hmem with h | ⟨c, hc, hp⟩
        · exact Or.inl h
        · exact Or.inr ⟨c, hsub _ _ hc, hp⟩
      · rename_i two src tgt hstep
        split at hmem
        · rcases List.mem_cons.mp (List.mem_reverse.mp hmem) with h | h
          · subst h
            exact Or.inr ⟨cue, List.mem_cons_self _ _, rfl, rfl,
              mk_convert_ne_empty _ (cueStep_emit_ne_nil p cue rest two src tgt hstep)⟩
          · exact Or.inl h
        · rcases ih _ _ _ _ hmem with h | ⟨c, hc, hp⟩
          · rcases List.mem_cons.mp h with h1 | h1
            · subst h1
              exact Or.inr ⟨cue, List.mem_cons_self _ _, rfl, rfl,
                mk_convert_ne_empty _ (cueStep_emit_ne_nil p cue rest two src tgt hstep)⟩
            · exact Or.inl h1
          · exact Or.inr ⟨c, hsub _ _ hc, hp⟩

/-- The extraction loop never exceeds a positive `max_segments` cap. -/
lemma loadGo_length (p : LoadParams) (N : Nat) (hms : p.maxSegments = some N)
    (hN : 1 ≤ N) :
    ∀ (fuel : Nat) (cues : List Cue) (nextId : Nat) (acc : List Segment),
      acc.length < N → (loadGo p fuel cues nextId acc).length ≤ N := by
  intro fuel
  induction fuel with
  | zero =>
    intro cues nextId acc hlen
    simpa [loadGo] using Nat.le_of_lt hlen
  | succ fuel ih =>
    intro cues nextId acc hlen
    cases cues with
    | nil => simpa [loadGo] using Nat.le_of_lt hlen
    | cons cue rest =>
      unfold loadGo
      split
      · simpa using Nat.le_of_lt hlen
      · exact ih _ _ _ hlen
      · split
        · simpa using hlen
        · rename_i hmax
          refine ih _ _ _ ?_
          rw [hms] at hmax
          simp only [maxReached, List.length_cons, decide_eq_true_eq,
            Bool.and_eq_true, not_and, ne_eq] at hmax
          simp only [List.length_cons]
          omega

/-- C4 (amended): for every cue list and positive `maxSegments = N`,
extraction returns at most `N` segments, every returned segment has
nonempty `target_text`, and — provided every cue of the file satisfies
`start < end` (the parser copies cue timestamps verbatim and never
filters reversed cues) — every returned segment has
`start_time < end_time`. -/
theorem subtitle_extraction_caps_and_text (p : LoadParams) (cues : List Cue)
    (N : Nat) (hms : p.maxSegments = some N) (hN : 1 ≤ N) :
    (load p cues).length ≤ N ∧
    (∀ s ∈ load p cues, s.target_text ≠ "") ∧
    ((∀ c ∈ cues, c.startMs < c.endMs) →
      ∀ s ∈ load p cues, s.start_time < s.end_time) := by
  refine ⟨?_, ?_, ?_⟩
  · exact loadGo_length p N hms hN _ _ _ _ (by simpa using hN)
  · intro s hs
    rcases loadGo_mem p _ _ _ _ s hs with h | ⟨c, hc, -, -, hne⟩
    · exact absurd h (List.not_mem_nil _)
    · exact hne
  · intro hwf s hs
    rcases loadGo_mem p _ _ _ _ s hs with h | ⟨c, hc, h1, h2, -⟩
    · exact absurd h (List.not_mem_nil _)
    · rw [h1, h2]
      have hQ : (c.startMs : ℚ) < c.endMs := by exact_mod_cast hwf c hc
      gcongr

/-- C4 counterexample: on a subtitle file whose single cue has
`end < start` (a malformed but parseable cue), extraction still returns
the segment with the cue's timestamps, so `start_time < end_time`
fails; the claim as stated is false. -/
theorem subtitle_extraction_start_end_cex :
    ¬ (∀ s ∈ load ⟨0, none, some 5⟩ [⟨5000, 4000, ['你', '好']⟩],
        s.start_time < s.end_time) := by decide

/-- Witness: `subtitle_extraction_caps_and_text` applied to a concrete
two-cue file with cap 1. -/
theorem subtitle_extraction_caps_witness :
    (load ⟨0, none, some 1⟩
        [⟨0, 1000, ['你', '好']⟩, ⟨2000, 3000, ['再', '见']⟩]).length ≤ 1 ∧
    (∀ s ∈ load ⟨0, none, some 1⟩
        [⟨0, 1000, ['你', '好']⟩, ⟨2000, 3000, ['再', '见']⟩],
      s.target_text ≠ "") ∧
    ((∀ c ∈ ([⟨0, 1000, ['你', '好']⟩, ⟨2000, 3000, ['再', '见']⟩] : List Cue),
        c.startMs < c.endMs) →
      ∀ s ∈ load ⟨0, none, some 1⟩
          [⟨0, 1000, ['你', '好']⟩, ⟨2000, 3000, ['再', '见']⟩],
        s.start_time < s.end_time) :=
  subtitle_extraction_caps_and_text ⟨0, none, some 1⟩
    [⟨0, 1000, ['你', '好']⟩, ⟨2000, 3000, ['再', '见']⟩] 1 rfl (by decide)

/-! ## Parse-stage reconciliation (`Pipeline._stage_parse_subtitles`) -/

/-- The recovery key `(start_time, target_text)`. -/
def segKey (s : Segment) : ℚ × String := (s.start_time, s.target_text)

/-- The dict comprehension
`{(s.start_time, s.target_text): s for s in segments if s.status == "success"}`:
a finite map built left to right, later entries shadowing earlier ones. -/
def buildOldDict (olds : List Segment) : ℚ × String → Option Segment :=
  olds.foldl
    (fun d s =>
      if s.status = "success" then
        (fun k => if k = segKey s then some s else d k)
      else d)
    (fun _ => none)

/-- `_stage_parse_subtitles`' recovery loop: for each newly parsed
segment whose key is in the dict of previously successful segments,
copy over `status`, `ref_audio_path`, `output_audio_path` and
`actual_duration` (the source mutates `ns` in place; as a function of
the list this is the map below). -/
def mergeSegments (olds news : List Segment) : List Segment :=
  news.map (fun ns =>
    match buildOldDict olds (segKey ns) with
    | some os =>
      { ns with
        status := os.status
        ref_audio_path := os.ref_audio_path
        output_audio_path := os.output_audio_path
        actual_duration := os.actual_duration }
    | none => ns)

lemma buildOldDict_foldl (olds : List Segment)
    (d : ℚ × String → Option Segment) (k : ℚ × String) :
    (olds.foldl
      (fun d s =>
        if s.status = "success" then
          (fun k' => if k' = segKey s then some s else d k')
        else d)
      d) k =
      match (olds.filter (fun s => s.status = "success")).reverse.find?
          (fun s => segKey s = k) with
      | some os => some os
      | none => d k := by
  induction olds generalizing d with
  | nil => rfl
  | cons s rest ih =>
    simp only [List.foldl_cons]
    rw [ih]
    by_cases hs : s.status = "success"
    · simp only [List.filter_cons, hs, decide_True, decide_eq_true_eq, if_true,
        List.reverse_cons, List.find?_append]
      cases hfind : (rest.filter (fun s => decide (s.status = "success"))).reverse.find?
          (fun s => decide (segKey s = k)) with
      | some x => simp [hfind]
      | none =>
        simp only [hfind, Option.none_or, List.find?_cons, List.find?_nil]
        by_cases hk : segKey s = k
        · simp [hk]
        · have hk2 : ¬ k = segKey s := fun h => hk h.symm
          simp [hk, hk2]
    · simp only [List.filter_cons, hs]
      simp

/-- The dict lookup is "last successful segment with this key". -/
lemma buildOldDict_eq (olds : List Segment) (k : ℚ × String) :
    buildOldDict olds k =
      (olds.filter (fun s => s.status = "success")).reverse.find?
        (fun s => segKey s = k) := by
  rw [buildOldDict, buildOldDict_foldl]
  cases (olds.filter (fun s => s.status = "success")).reverse.find?
      (fun s => segKey s = k) <;> rfl

/-- C5 (amended): the parse-stage reconciliation copies `status`,
`ref_audio_path`, `output_audio_path` and `actual_duration` from a
previous segment to a new segment exactly when the new segment's key
`(start_time, target_text)` matches a previous segment **whose status
is "success"** (the last such one when keys repeat); new segments with
no such match are left unchanged — in particular fresh parses keep
status `pending` and `None` paths. -/
theorem parse_reconciliation_copies_success (olds news : List Segment) :
    mergeSegments olds news = news.map (fun ns =>
      match (olds.filter (fun s => s.status = "success")).reverse.find?
          (fun s => segKey s = segKey ns) with
      | some os =>
        { ns with
          status := os.status
          ref_audio_path := os.ref_audio_path
          output_audio_path := os.output_audio_path
          actual_duration := os.actual_duration }
      | none => ns) := by
  unfold mergeSegments
  simp only [buildOldDict_eq]

/-- The reconciliation as the claim words it, for refutation: copy
whenever the key matches **any** previous segment, regardless of its
status. -/
def mergeSegmentsAnyStatus (olds news : List Segment) : List Segment :=
  news.map (fun ns =>
    match olds.reverse.find? (fun s => segKey s = segKey ns) with
    | some os =>
      { ns with
        status := os.status
        ref_audio_path := os.ref_audio_path
        output_audio_path := os.output_audio_path
        actual_duration := os.actual_duration }
    | none => ns)

/-- C5 counterexample: a previous segment with a matching key but
status `"error"` (and a recorded `ref_audio_path`) is **not** copied by
the code, while the claim ("copies … exactly when the two agree on the
key") requires the copy; the two disagree on this input. -/
theorem parse_reconciliation_cex :
    mergeSegments
        [{ id := 1, start_time := 1, end_time := 2, duration := 1,
           source_text := "", target_text := "你好",
           ref_audio_path := some "ref_0001.wav", status := "error" }]
        [{ id := 1, start_time := 1, end_time := 2, duration := 1,
           source_text := "", target_text := "你好" }] ≠
      mergeSegmentsAnyStatus
        [{ id := 1, start_time := 1, end_time := 2, duration := 1,
           source_text := "", target_text := "你好",
           ref_audio_path := some "ref_0001.wav", status := "error" }]
        [{ id := 1, start_time := 1, end_time := 2, duration := 1,
           source_text := "", target_text := "你好" }] := by decide

/-! ## Project manifest and stage verification (`src/pipeline.py`) -/

/-- The six pipeline stages, keys of `stages_status`. -/
inductive Stage where
  | parse | clip | extract | process | generate | merge
deriving DecidableEq, Repr

/-- A `stages_status` entry: the current schema stores a bare string;
the legacy schema stored an object `{"status": …, "files": […]}`
(normalised via `stage_val.get("status", "pending")`). -/
inductive StageVal where
  | str (s : String)
  | legacy (status : Option String)
deriving DecidableEq, Repr

/-- The effective status string of an entry, as both
`ProjectManifest.load` and `_is_stage_completed` normalise it. -/
def StageVal.eff : StageVal → String
  | StageVal.str s => s
  | StageVal.legacy st => st.getD "pending"

/-- The `stages_status` map with its six fixed keys. -/
structure StagesStatus where
  parse : StageVal := StageVal.str "pending"
  clip : StageVal := StageVal.str "pending"
  extract : StageVal := StageVal.str "pending"
  process : StageVal := StageVal.str "pending"
  generate : StageVal := StageVal.str "pending"
  merge : StageVal := StageVal.str "pending"
deriving DecidableEq, Repr

/-- `stages_status.get(stage_name)`. -/
def StagesStatus.get (st : StagesStatus) : Stage → StageVal
  | Stage.parse => st.parse
  | Stage.clip => st.clip
  | Stage.extract => st.extract
  | Stage.process => st.process
  | Stage.generate => st.generate
  | Stage.merge => st.merge

/-- `ProjectManifest` from `src/pipeline.py` (field for field; the
`segments` list holds the `Segment` model above). -/
structure ProjectManifest where
  project_name : String
  video_source : String
  subtitle_source : String
  status : String := "pending"
  clipped_video : Option String := none
  vocal_track : Option String := none
  bgm_track : Option String := none
  dubbed_track : Option String := none
  final_video : Option String := none
  stages_status : StagesStatus := {}
  clip_start : ℚ := 0
  clip_end : ℚ := 0
  segments : List Segment := []
  error_msg : Option String := none
deriving DecidableEq, Repr

/-- The file system and media probes as an explicit environment:
`fileExists` is `Path(...).exists()`, `duration` is
`AudioProcessor.get_duration` (`none` = the call raised). -/
structure FS where
  fileExists : String → Bool
  duration : String → Option ℚ
deriving Inhabited

/-- `bool(x and Path(x).exists())` for an optional path field. -/
def optFileExists (fs : FS) : Option String → Bool
  | none => false
  | some p => if p = "" then false else fs.fileExists p

/-- `Pipeline._is_stage_completed`: the flag must be `"completed"`
(legacy dict entries normalised first), and for `clip`/`extract`/`merge`
the artifact recorded in the corresponding top-level manifest field must
exist on disk; for `parse`/`process`/`generate` the source returns
`True` without a file check. -/
def isStageCompleted (fs : FS) (m : ProjectManifest) (stage : Stage) : Bool :=
  if (m.stages_status.get stage).eff ≠ "completed" then false
  else
    match stage with
    | Stage.clip => optFileExists fs m.clipped_video
    | Stage.extract => optFileExists fs m.vocal_track
    | Stage.merge => optFileExists fs m.final_video
    | _ => true

/-- The on-disk artifacts a stage claims to have produced, as the claim
reads them: `clip` the clipped video, `extract` the vocal track,
`merge` the final video, `prepare-segments` the per-segment reference
clips, `synthesize` the per-segment output clips, `parse` nothing.
Modelled from the claim's words, for refutation. -/
def stageClaimedArtifacts (m : ProjectManifest) : Stage → List String
  | Stage.parse => []
  | Stage.clip => m.clipped_video.toList
  | Stage.extract => m.vocal_track.toList
  | Stage.merge => m.final_video.toList
  | Stage.process => m.segments.filterMap (fun s => s.ref_audio_path)
  | Stage.generate => m.segments.filterMap (fun s => s.output_audio_path)

/-- A file system on which nothing exists. -/
def fsNone : FS := ⟨fun _ => false, fun _ => none⟩

/-- A manifest whose `process` flag claims completion while the
recorded per-segment reference clip is absent from `fsNone`. -/
def manifestProcessClaimed : ProjectManifest :=
  { project_name := "p"
    video_source := "v"
    subtitle_source := "s"
    stages_status := { process := StageVal.str "completed" }
    segments := [{ id := 1
                   start_time := 0
                   end_time := 1
                   duration := 1
                   source_text := ""
                   target_text := "你"
                   ref_audio_path := some "ref_0001.wav" }] }

/-- C2 counterexample: a manifest whose `process` flag is `"completed"`
while the recorded per-segment reference clip does not exist on disk;
`_is_stage_completed` still answers `true`, so the "for every stage"
claim is false (the file check only covers `clip`/`extract`/`merge`). -/
theorem stage_double_verification_cex :
    isStageCompleted fsNone manifestProcessClaimed Stage.process = true ∧
    (stageClaimedArtifacts manifestProcessClaimed Stage.process).all
      (fun p => fsNone.fileExists p) = false := by decide

/-- C2 (amended): the double verification holds exactly for the three
stages with a manifest-level artifact path — `clip` (clipped video),
`extract` (vocal track) and `merge` (final video) return `true` iff the
flag is `"completed"` and the recorded file exists; for `parse`,
`process` and `generate` the `"completed"` flag alone suffices, with no
file check in this function. -/
theorem stage_double_verification_amended (fs : FS) (m : ProjectManifest) :
    (isStageCompleted fs m Stage.clip =
      (decide ((m.stages_status.clip).eff = "completed") &&
        optFileExists fs m.clipped_video)) ∧
    (isStageCompleted fs m Stage.extract =
      (decide ((m.stages_status.extract).eff = "completed") &&
        optFileExists fs m.vocal_track)) ∧
    (isStageCompleted fs m Stage.merge =
      (decide ((m.stages_status.merge).eff = "completed") &&
        optFileExists fs m.final_video)) ∧
    (isStageCompleted fs m Stage.parse =
      decide ((m.stages_status.parse).eff = "completed")) ∧
    (isStageCompleted fs m Stage.process =
      decide ((m.stages_status.process).eff = "completed")) ∧
    (isStageCompleted fs m Stage.generate =
      decide ((m.stages_status.generate).eff = "completed")) := by
  unfold isStageCompleted StagesStatus.get
  refine ⟨?_, ?_, ?_, ?_, ?_, ?_⟩ <;>
    · split
      · simp_all
      · simp_all

/-- The manifest resets performed by the invalidation path of
`_invalidate_on_range_change`: drop the clip and the separated tracks,
set the `clip`/`extract`/`process`/`generate` flags back to
`"pending"`, and clear every segment's synthesis fields (`error_msg`
is cleared only for segments that were not already pending, exactly as
the source's `if seg.status != "pending"` does). -/
def resetAfterRangeChange (m : ProjectManifest) : ProjectManifest :=
  { m with
    clipped_video := none
    vocal_track := none
    bgm_track := none
    stages_status :=
      { m.stages_status with
        clip := StageVal.str "pending"
        extract := StageVal.str "pending"
        process := StageVal.str "pending"
        generate := StageVal.str "pending" }
    segments := m.segments.map (fun seg =>
      { seg with
        ref_audio_path := none
        output_audio_path := none
        actual_duration := none
        status := "pending"
        error_msg := if seg.status ≠ "pending" then none else seg.error_msg }) }

/-- The files the invalidation path deletes: among the clipped video
and the separated vocal/background tracks, those that are recorded and
exist; plus the intermediate full-audio extraction if it exists. -/
def deletedOnRangeChange (fs : FS) (fullAudioPath : String)
    (m : ProjectManifest) : List String :=
  (([m.clipped_video, m.vocal_track, m.bgm_track].filterMap id).filter
    (fun q => ¬ q = "" ∧ fs.fileExists q)) ++
  (if fs.fileExists fullAudioPath then [fullAudioPath] else [])

/-- `Pipeline._invalidate_on_range_change`: compare the measured
duration of the existing clipped video against the expected duration
`clip_end - clip_start`; within the 2-second tolerance (or with no
existing clip, or when `get_duration` raises) do nothing, otherwise
delete the stale artifacts and reset the downstream state.  The result
is the new manifest, the list of deleted files, and whether the
`seg_*/ref_*/dub_*` directories were purged.  `fullAudioPath` stands
for `intermediate_dir / f"{project_name}_full.wav"`. -/
def invalidateOnRangeChange (fs : FS) (fullAudioPath : String)
    (m : ProjectManifest) : ProjectManifest × List String × Bool :=
  match m.clipped_video with
  | none => (m, [], false)
  | some p =>
    if p = "" ∨ fs.fileExists p = false then (m, [], false)
    else
      match fs.duration p with
      | none => (m, [], false)
      | some actual =>
        if |actual - (m.clip_end - m.clip_start)| ≤ 2 then (m, [], false)
        else
          ({ m with
              clipped_video := none
              vocal_track := none
              bgm_track := none
              stages_status :=
                { m.stages_status with
                  clip := StageVal.str "pending"
                  extract := StageVal.str "pending"
                  process := StageVal.str "pending"
                  generate := StageVal.str "pending" }
              segments := m.segments.map (fun seg =>
                { seg with
                  ref_audio_path := none
                  output_audio_path := none
                  actual_duration := none
                  status := "pending"
                  error_msg :=
                    if seg.status ≠ "pending" then none else seg.error_msg }) },
            (([m.clipped_video, m.vocal_track, m.bgm_track].filterMap id).filter
              (fun q => ¬ q = "" ∧ fs.fileExists q)) ++
            (if fs.fileExists fullAudioPath then [fullAudioPath] else []),
            true)

/-- C1: with an existing previously clipped video whose duration is
measurable, a deviation of more than 2 seconds from the new expected
duration `clip_end - clip_start` deletes the clip, the separated
tracks and the full-audio intermediate (those that exist), resets the
`clip`/`extract`/`process`/`generate` flags to pending and clears every
segment's synthesis fields; a deviation of at most 2 seconds leaves the
manifest (all flags, artifact paths and segment fields) unchanged and
deletes nothing. -/
theorem range_change_invalidation (fs : FS) (fullA : String)
    (m : ProjectManifest) (p : String) (d : ℚ)
    (h1 : m.clipped_video = some p) (h2 : p ≠ "")
    (h3 : fs.fileExists p = true) (h4 : fs.duration p = some d) :
    (|d - (m.clip_end - m.clip_start)| ≤ 2 →
      invalidateOnRangeChange fs fullA m = (m, [], false)) ∧
    (2 < |d - (m.clip_end - m.clip_start)| →
      invalidateOnRangeChange fs fullA m =
        (resetAfterRangeChange m, deletedOnRangeChange fs fullA m, true)) := by
  unfold invalidateOnRangeChange
  simp only [h1, h4]
  rw [if_neg (by simp [h2, h3])]
  constructor
  · intro h
    rw [if_pos h]
  · intro h
    rw [if_neg (not_le.mpr h)]
    unfold resetAfterRangeChange deletedOnRangeChange
    rw [h1]

/-- A file system with a 10-second clip and a vocal track on disk. -/
def fsDemo : FS :=
  ⟨fun s => s = "clip.mp4" ∨ s = "voc.wav", fun _ => some 10⟩

/-- A manifest whose recorded window expects 5 seconds while the
existing clip measures 10 seconds. -/
def manifestDemo : ProjectManifest :=
  { project_name := "demo"
    video_source := "v.mp4"
    subtitle_source := "s.srt"
    clipped_video := some "clip.mp4"
    vocal_track := some "voc.wav"
    clip_start := 0
    clip_end := 5
    segments := [{ id := 1
                   start_time := 1
                   end_time := 2
                   duration := 1
                   source_text := ""
                   target_text := "你"
                   output_audio_path := some "dub_0001.wav"
                   actual_duration := some 1
                   status := "success" }] }

/-- Witness: `range_change_invalidation` applied to the concrete
5-second-expected / 10-second-actual manifest. -/
theorem range_change_invalidation_witness :
    (2 : ℚ) < |10 - (manifestDemo.clip_end - manifestDemo.clip_start)| ∧
    invalidateOnRangeChange fsDemo "demo_full.wav" manifestDemo =
      (resetAfterRangeChange manifestDemo,
        deletedOnRangeChange fsDemo "demo_full.wav" manifestDemo, true) :=
  ⟨by decide,
    (range_change_invalidation fsDemo "demo_full.wav" manifestDemo "clip.mp4" 10
      rfl (by decide) (by decide) rfl).2 (by decide)⟩

/-! ## Duration matching (`Pipeline._stage_generate_dubbing`, `Config`) -/

/-- `Config.speed_no_adjust_threshold` (±10% band). -/
def speed_no_adjust_threshold : ℚ := 1 / 10

/-- `Config.speed_min_atempo`. -/
def speed_min_atempo : ℚ := 4 / 5

/-- `Config.speed_max_atempo`. -/
def speed_max_atempo : ℚ := 5 / 4

/-- The playback-speed decision of the synthesize stage's
post-processing: `none` when the synthesized/slot ratio is inside the
tolerance band; otherwise the ratio clamped to
`[speed_min_atempo, speed_max_atempo]`, further recomputed from the
headroom to the next non-error segment (start minus 50 ms) when the
clamped value would overlap — and that recomputed value capped at 2.0.
`rest` is the list of segments after the current one. -/
def computeSpeed (actualDur targetDur segStart : ℚ)
    (rest : List Segment) : Option ℚ :=
  if actualDur / targetDur < 1 - speed_no_adjust_threshold ∨
      1 + speed_no_adjust_threshold < actualDur / targetDur then
    match (rest.dropWhile (fun s => s.status = "error")).head? with
    | some nxt =>
      if actualDur / max speed_min_atempo (min speed_max_atempo (actualDur / targetDur)) >
            nxt.start_time - segStart - 5 / 100 ∧
          nxt.start_time - segStart - 5 / 100 > 0 then
        some (min (actualDur / (nxt.start_time - segStart - 5 / 100)) 2)
      else some (max speed_min_atempo (min speed_max_atempo (actualDur / targetDur)))
    | none => some (max speed_min_atempo (min speed_max_atempo (actualDur / targetDur)))
  else none

/-- Duration of the time-stretched clip: `actual_duration / speed`
(unchanged when no adjustment is made). -/
def renderedDuration (actualDur : ℚ) : Option ℚ → ℚ
  | none => actualDur
  | some sp => actualDur / sp

/-- C3 counterexample: start 10.0, slot 2.0, synthesized 2.6, next
non-error segment at 10.1.  The headroom is 0.05 s, the recomputed
multiplier 2.6/0.05 = 52 is capped at 2.0, and the rendered duration
1.3 s overruns the next segment's start; the multiplier 2.0 also lies
outside the configured bounds, so the claim's cap guarantee is false. -/
theorem speed_cap_cex :
    computeSpeed (26 / 10) 2 10
        [{ id := 2, start_time := 101 / 10, end_time := 11,
           duration := 9 / 10, source_text := "", target_text := "好" }] =
      some 2 ∧
    renderedDuration (26 / 10) (some 2) = 13 / 10 ∧
    ¬ (13 / 10 : ℚ) ≤ 101 / 10 - 10 - 5 / 100 ∧
    ¬ (2 : ℚ) ≤ speed_max_atempo := by decide

/-- C3 (amended): outside the tolerance band, the base multiplier is
the ratio clamped to the configured bounds; when that would overlap the
next non-error segment's start minus the 50 ms margin, the multiplier
is recomputed from the headroom but capped at 2.0.  Consequently the
rendered duration stays within the headroom whenever the required
speed-up `actual / headroom` is at most 2.0 (positive headroom assumed);
beyond that the clip may still overlap. -/
theorem speed_cap_amended (actualDur targetDur segStart : ℚ)
    (rest : List Segment) (nxt : Segment)
    (hact : 0 < actualDur)
    (hband : actualDur / targetDur < 1 - speed_no_adjust_threshold ∨
      1 + speed_no_adjust_threshold < actualDur / targetDur)
    (hnext : (rest.dropWhile (fun s => s.status = "error")).head? = some nxt)
    (hroom : 0 < nxt.start_time - segStart - 5 / 100)
    (hfit : actualDur ≤ 2 * (nxt.start_time - segStart - 5 / 100)) :
    ∃ sp, computeSpeed actualDur targetDur segStart rest = some sp ∧
      0 < sp ∧ sp ≤ 2 ∧
      renderedDuration actualDur (some sp) ≤
        nxt.start_time - segStart - 5 / 100 := by
  unfold computeSpeed
  rw [if_pos hband]
  simp only [hnext]
  set maxDur := nxt.start_time - segStart - 5 / 100 with hmd
  set speed0 := max speed_min_atempo (min speed_max_atempo (actualDur / targetDur))
    with hs0
  have hs0pos : 0 < speed0 := lt_of_lt_of_le (by norm_num [speed_min_atempo])
    (le_max_left _ _)
  split
  · rename_i hover
    refine ⟨min (actualDur / maxDur) 2, rfl, ?_, min_le_right _ _, ?_⟩
    · exact lt_min (div_pos hact hroom) (by norm_num)
    · have hle2 : actualDur / maxDur ≤ 2 := (div_le_iff₀ hroom).mpr (by linarith)
      rw [min_eq_left hle2]
      have : actualDur / (actualDur / maxDur) = maxDur := by
        field_simp
      rw [renderedDuration, this]
  · rename_i hover
    refine ⟨speed0, rfl, hs0pos, ?_, ?_⟩
    · refine max_le (by norm_num [speed_min_atempo]) ?_
      exact le_trans (min_le_left _ _) (by norm_num [speed_max_atempo])
    · rw [renderedDuration]
      rcases not_and_or.mp hover with h | h
      · exact le_of_not_lt h
      · exact absurd hroom (by simpa using h)

/-- The spec's concrete next segment at 12.3 s. -/
def nextSeg123 : Segment :=
  { id := 2
    start_time := 123 / 10
    end_time := 14
    duration := 17 / 10
    source_text := ""
    target_text := "好" }

/-- Witness: `speed_cap_amended` on the spec's example (start 10.0,
slot 2.0, synthesized 2.6, next segment at 12.3): the rendered duration
is bounded by the 2.25 s headroom; concretely the multiplier is 1.25
(inside the configured bounds) and the rendered duration 2.08 s. -/
theorem speed_cap_witness :
    (∃ sp, computeSpeed (26 / 10) 2 10 [nextSeg123] = some sp ∧
      0 < sp ∧ sp ≤ 2 ∧
      renderedDuration (26 / 10) (some sp) ≤
        nextSeg123.start_time - 10 - 5 / 100) ∧
    computeSpeed (26 / 10) 2 10 [nextSeg123] = some (5 / 4) ∧
    renderedDuration (26 / 10) (some (5 / 4)) = 52 / 25 ∧
    (52 / 25 : ℚ) ≤ 9 / 4 ∧
    speed_min_atempo ≤ 5 / 4 ∧ (5 / 4 : ℚ) ≤ speed_max_atempo :=
  ⟨speed_cap_amended (26 / 10) 2 10 [nextSeg123] nextSeg123
      (by decide) (by decide) (by decide) (by decide) (by decide),
    by decide, by decide, by decide, by decide, by decide⟩

/-! ## Dub-track composition (`AudioMerger.create_dubbed_track`) -/

/-- Millisecond timeline length of the silent base
(`anullsrc` with `-t total_duration`; `amix duration=first` cuts every
mix at this length). -/
def totalMsOf (totalDuration : ℚ) : Nat := (totalDuration * 1000).ceil.toNat

/-- `adelay` amount: `max(0, int((seg.start_time - time_offset) * 1000))`
(for the clamped-at-zero result, `int`'s truncation and `floor` agree). -/
def delayMs (timeOffset : ℚ) (seg : Segment) : Nat :=
  (((seg.start_time - timeOffset) * 1000).floor).toNat

/-- `seg.status == "success" and seg.output_audio_path`: the filter of
`create_dubbed_track` (and of `create_gap_vocal_track`). -/
def validSegments (segments : List Segment) : List Segment :=
  segments.filter (fun s => s.status = "success" ∧ strTruthy s.output_audio_path)

/-- One input after `adelay=…|…,apad=whole_dur=…`: the clip's samples
(an environment `env : path → ms → amplitude`, zero outside the clip)
shifted to the segment's delay. -/
def placedAt (env : String → Nat → ℚ) (timeOffset : ℚ) (seg : Segment)
    (t : Nat) : ℚ :=
  if delayMs timeOffset seg ≤ t then
    env (seg.output_audio_path.getD "") (t - delayMs timeOffset seg)
  else 0

/-- `AudioMerger._execute_merge`: the silent base plus every placed
segment, summed by `amix … :normalize=0` and cut at `duration=first`
(the base's length). -/
def executeMerge (env : String → Nat → ℚ) (segments : List Segment)
    (totalDuration timeOffset : ℚ) (t : Nat) : ℚ :=
  if t < totalMsOf totalDuration then
    (segments.map (fun seg => placedAt env timeOffset seg t)).sum
  else 0

/-- `valid_segments[i:i+50]` for `i in range(0, len, 50)`. -/
def chunk50 : List Segment → List (List Segment)
  | [] => []
  | x :: xs => (x :: xs).take 50 :: chunk50 ((x :: xs).drop 50)
termination_by l => l.length
decreasing_by
  simp only [List.length_drop, List.length_cons]
  omega

/-- `AudioMerger.create_dubbed_track`: raise when no segment succeeded;
mix directly for at most 50 valid segments; otherwise render each batch
of 50 against the silent base and sum the batch tracks in a second
`amix … :normalize=0` pass (again cut at `duration=first`). -/
def createDubbedTrack (env : String → Nat → ℚ) (segments : List Segment)
    (totalDuration timeOffset : ℚ) : Except String (Nat → ℚ) :=
  if validSegments segments = [] then Except.error "没有可用的配音段落"
  else if (validSegments segments).length ≤ 50 then
    Except.ok (executeMerge env (validSegments segments) totalDuration timeOffset)
  else
    Except.ok (fun t =>
      if t < totalMsOf totalDuration then
        (((chunk50 (validSegments segments)).map
          (fun b => executeMerge env b totalDuration timeOffset)).map
            (fun tr => tr t)).sum
      else 0)

/-- The hypothetical single-pass mix of the spec: every successfully
synthesized clip placed at `start_time - timeOffset` over the silent
base, summed without normalization.  Written from the spec's words for
the refinement comparison. -/
def singlePassMix (env : String → Nat → ℚ) (segments : List Segment)
    (totalDuration timeOffset : ℚ) (t : Nat) : ℚ :=
  if t < totalMsOf totalDuration then
    ((validSegments segments).map (fun seg => placedAt env timeOffset seg t)).sum
  else 0

lemma chunk50_flatten : ∀ l : List Segment, (chunk50 l).flatten = l := by
  suffices h : ∀ (n : Nat) (l : List Segment), l.length = n →
      (chunk50 l).flatten = l from fun l => h l.length l rfl
  intro n
  induction n using Nat.strong_induction_on with
  | _ n ih =>
    intro l hL
    cases l with
    | nil => rw [chunk50]; rfl
    | cons x xs =>
      rw [chunk50, List.flatten_cons,
        ih ((x :: xs).drop 50).length (by subst hL; simp; omega) _ rfl,
        List.take_append_drop]

/-- C6: with at least one successfully synthesized segment, the batched
two-pass composition (batches of 50 rendered over the silent base, the
batch tracks then summed without normalization) equals the single-pass
unbatched mix of all valid segments — exactly, since the model mixes in
exact rational arithmetic ("up to mixing rounding" in the spec). -/
theorem batched_mix_equals_single_pass (env : String → Nat → ℚ)
    (segments : List Segment) (totalDuration timeOffset : ℚ)
    (hvalid : validSegments segments ≠ []) :
    createDubbedTrack env segments totalDuration timeOffset =
      Except.ok (singlePassMix env segments totalDuration timeOffset) := by
  unfold createDubbedTrack
  rw [if_neg hvalid]
  split
  · rfl
  · congr 1
    funext t
    unfold singlePassMix
    split
    · rename_i ht
      have hb : ∀ b : List Segment,
          executeMerge env b totalDuration timeOffset t =
            (b.map (fun seg => placedAt env timeOffset seg t)).sum := by
        intro b
        unfold executeMerge
        rw [if_pos ht]
      conv_rhs => rw [← chunk50_flatten (validSegments segments)]
      rw [List.map_flatten, List.sum_flatten, List.map_map, List.map_map]
      refine congrArg List.sum (List.map_congr_left ?_)
      intro b _
      simp only [Function.comp]
      exact hb b
    · rfl

/-- 120 successful segments, for the spec's batching example. -/
def segs120 : List Segment :=
  (List.range 120).map (fun i =>
    { id := i + 1
      start_time := (i : ℚ)
      end_time := (i : ℚ) + 1
      duration := 1
      source_text := ""
      target_text := "你"
      output_audio_path := some "dub.wav"
      actual_duration := some 1
      status := "success" })

/-- Witness: the batched and single-pass mixes agree on 120 segments
(three batches of 50/50/20). -/
theorem batched_mix_witness :
    validSegments segs120 ≠ [] ∧
    createDubbedTrack (fun _ _ => 0) segs120 120 0 =
      Except.ok (singlePassMix (fun _ _ => 0) segs120 120 0) :=
  ⟨by decide, batched_mix_equals_single_pass (fun _ _ => 0) segs120 120 0
    (by decide)⟩

/-- C9: when no segment has status `"success"` with a set (truthy)
`output_audio_path`, `create_dubbed_track` raises instead of producing
a silent track. -/
theorem all_failed_raises (env : String → Nat → ℚ) (segments : List Segment)
    (totalDuration timeOffset : ℚ)
    (h : ∀ s ∈ segments,
      ¬ (s.status = "success" ∧ strTruthy s.output_audio_path = true)) :
    createDubbedTrack env segments totalDuration timeOffset =
      Except.error "没有可用的配音段落" := by
  have hnil : validSegments segments = [] := by
    unfold validSegments
    rw [List.filter_eq_nil_iff]
    intro s hs
    simpa using h s hs
  unfold createDubbedTrack
  rw [if_pos hnil]

/-- A segment whose synthesis failed. -/
def errSeg0 : Segment :=
  { id := 1
    start_time := 0
    end_time := 1
    duration := 1
    source_text := ""
    target_text := "你"
    status := "error" }

/-- Witness: a run in which the only segment failed aborts composition
with the source's error. -/
theorem all_failed_raises_witness :
    (∀ s ∈ [errSeg0],
      ¬ (s.status = "success" ∧ strTruthy s.output_audio_path = true)) ∧
    createDubbedTrack (fun _ _ => 0) [errSeg0] 10 0 =
      Except.error "没有可用的配音段落" :=
  ⟨by decide, all_failed_raises (fun _ _ => 0) [errSeg0] 10 0 (by decide)⟩

/-! ## Stage work loops (`_stage_process_segments`, `_stage_generate_dubbing`) -/

/-- `config.output_segments_dir / f"dub_{seg.id:04d}.wav"`. -/
def dubPath (id : Nat) : String := "dub_" ++ toString id ++ ".wav"

/-- `config.output_segments_dir / f"dub_{seg.id:04d}_final.wav"`. -/
def finalPath (id : Nat) : String := "dub_" ++ toString id ++ "_final.wav"

/-- `config.segments_dir / f"ref_{seg.id:04d}.wav"`. -/
def refPath (id : Nat) : String := "ref_" ++ toString id ++ ".wav"

/-- The external collaborators of the synthesize stage, as oracles per
segment id: `tts` is `TTSEngine.generate` (`some e` = the exception
message), `rawDur`/`finalDur` are `get_duration` on the raw/processed
clip, `post` is `post_process_audio` at the chosen speed. -/
structure GenEnv where
  fs : String → Bool
  tts : Nat → Option String
  rawDur : Nat → Except String ℚ
  post : Nat → Option ℚ → Except String Unit
  finalDur : Nat → Except String ℚ

/-- `seg.status == "success" and seg.output_audio_path and Path(...).exists()`:
the already-done skip of the synthesize loop. -/
def genSkipDone (fs : String → Bool) (seg : Segment) : Bool :=
  seg.status = "success" ∧ strTruthy seg.output_audio_path ∧
    fs (seg.output_audio_path.getD "") = true

/-- `seg.status == "error" or not seg.ref_audio_path`: the not-ready
skip of the synthesize loop. -/
def genSkipNotReady (seg : Segment) : Bool :=
  seg.status = "error" ∨ strTruthy seg.ref_audio_path = false

/-- One iteration of the synthesize loop on segment `seg` with `rest`
the segments after it (read only by the next-non-error lookup of the
speed cap).  The `try/except` placement of the source is mirrored: a
`tts` failure marks this segment `error`; failures inside the inner
post-processing `try` fall back to the state reached so far. -/
def genStep (env : GenEnv) (seg : Segment) (rest : List Segment) : Segment :=
  if genSkipDone env.fs seg then seg
  else if genSkipNotReady seg then seg
  else
    match env.tts seg.id with
    | some e => { seg with status := "error", error_msg := some e }
    | none =>
      match env.rawDur seg.id with
      | Except.error _ =>
        { seg with output_audio_path := some (dubPath seg.id),
                   status := "success" }
      | Except.ok rd =>
        match env.post seg.id (computeSpeed rd seg.duration seg.start_time rest) with
        | Except.error _ =>
          { seg with output_audio_path := some (dubPath seg.id),
                     status := "success", actual_duration := some rd }
        | Except.ok _ =>
          match env.finalDur seg.id with
          | Except.error _ =>
            { seg with output_audio_path := some (finalPath seg.id),
                       status := "success", actual_duration := some rd }
          | Except.ok fd =>
            { seg with output_audio_path := some (finalPath seg.id),
                       status := "success", actual_duration := some fd }

/-- The synthesize loop.  The source iterates with `i` over the list,
mutating segment `i` in place; each iteration reads only segment `i`
and the statuses of segments after `i` (which still hold their
pre-loop values when read), so the loop is this structural recursion. -/
def generateLoop (env : GenEnv) : List Segment → List Segment
  | [] => []
  | seg :: rest => genStep env seg rest :: generateLoop env rest

/-- The external collaborators of the prepare-segments stage:
`fs` checks the `ref_NNNN.wav` naming convention, `processSegment` is
`AudioProcessor.process_segment` returning the reference-clip path. -/
structure ProcEnv where
  fs : String → Bool
  processSegment : Nat → Except String String

/-- One iteration of the prepare-segments loop: skip when the expected
reference clip already exists, otherwise cut/sanitize it; a failure
marks only this segment `error` with its message. -/
def procStep (env : ProcEnv) (seg : Segment) : Segment :=
  if env.fs (refPath seg.id) then
    { seg with ref_audio_path := some (refPath seg.id) }
  else
    match env.processSegment seg.id with
    | Except.ok ref => { seg with ref_audio_path := some ref }
    | Except.error e => { seg with status := "error", error_msg := some e }

/-- The prepare-segments loop: no iteration reads any other segment,
so the in-place loop is a map. -/
def processLoop (env : ProcEnv) (segments : List Segment) : List Segment :=
  segments.map (procStep env)

lemma generateLoop_length (env : GenEnv) (l : List Segment) :
    (generateLoop env l).length = l.length := by
  induction l with
  | nil => rfl
  | cons seg rest ih => simp [generateLoop, ih]

/-- Each loop result is determined by the segment itself and the
pre-loop tail after it — one segment's outcome cannot disturb
another's. -/
lemma generateLoop_getElem? (env : GenEnv) :
    ∀ (l : List Segment) (j : Nat),
      (generateLoop env l)[j]? =
        (l[j]?).map (fun s => genStep env s (l.drop (j + 1))) := by
  intro l
  induction l with
  | nil => intro j; rfl
  | cons seg rest ih =>
    intro j
    cases j with
    | zero => simp [generateLoop]
    | succ j =>
      simp only [generateLoop, List.getElem?_cons_succ, List.drop_succ_cons]
      exact ih j

lemma genStep_fail (env : GenEnv) (seg : Segment) (rest : List Segment)
    (e : String) (h1 : genSkipDone env.fs seg = false)
    (h2 : genSkipNotReady seg = false) (h3 : env.tts seg.id = some e) :
    genStep env seg rest = { seg with status := "error", error_msg := some e } := by
  unfold genStep
  rw [h1, h3]
  simp [h2]

/-- Error-status segments never enter the composed dub track. -/
lemma validSegments_filter_error (l : List Segment) :
    validSegments (l.filter (fun s => ¬ s.status = "error")) =
      validSegments l := by
  unfold validSegments
  rw [List.filter_filter]
  refine List.filter_congr ?_
  intro s _
  by_cases hs : s.status = "success" <;> simp [hs]

/-- C7: in the prepare-segments and synthesize loops, a failure while
processing one segment marks only that segment `error` (with its
message) and no other segment's outcome changes — each position's
result is a function of that segment and the pre-loop tail alone, so
every subsequent segment is still attempted; the prepare-segments loop
is likewise per-segment; and a segment left in `error` status
contributes nothing to the composed dub track (silence over its slot). -/
theorem segment_failure_isolated (genv : GenEnv) (penv : ProcEnv)
    (segs : List Segment) (i : Nat) (si : Segment) (emsg : String)
    (hsi : segs[i]? = some si)
    (hnd : genSkipDone genv.fs si = false)
    (hnr : genSkipNotReady si = false)
    (hfail : genv.tts si.id = some emsg) :
    (generateLoop genv segs).length = segs.length ∧
    (∀ j, (generateLoop genv segs)[j]? =
      (segs[j]?).map (fun s => genStep genv s (segs.drop (j + 1)))) ∧
    ((generateLoop genv segs)[i]?).map (fun s => s.status) = some "error" ∧
    ((generateLoop genv segs)[i]?).map (fun s => s.error_msg) =
      some (some emsg) ∧
    processLoop penv segs = segs.map (procStep penv) ∧
    (∀ (env : String → Nat → ℚ) (totalDuration timeOffset : ℚ),
      singlePassMix env ((generateLoop genv segs).filter
          (fun s => ¬ s.status = "error")) totalDuration timeOffset =
        singlePassMix env (generateLoop genv segs) totalDuration timeOffset) := by
  have hget := generateLoop_getElem? genv segs
  have hi : (generateLoop genv segs)[i]? =
      some { si with status := "error", error_msg := some emsg } := by
    rw [hget i, hsi, Option.map_some',
      genStep_fail genv si _ emsg hnd hnr hfail]
  refine ⟨generateLoop_length genv segs, hget, ?_, ?_, rfl, ?_⟩
  · rw [hi, Option.map_some']
  · rw [hi, Option.map_some']
  · intro env totalDuration timeOffset
    unfold singlePassMix
    rw [validSegments_filter_error]

/-- A synthesize environment in which segment 1's synthesis raises. -/
def genvFail : GenEnv :=
  { fs := fun _ => false
    tts := fun id => if id = 1 then some "CUDA out of memory" else none
    rawDur := fun _ => Except.ok 1
    post := fun _ _ => Except.ok ()
    finalDur := fun _ => Except.ok 1 }

/-- A prepare-segments environment that always succeeds. -/
def penvOk : ProcEnv := ⟨fun _ => false, fun _ => Except.ok "ref.wav"⟩

/-- First segment of the witness run (its synthesis will fail). -/
def segA : Segment :=
  { id := 1
    start_time := 0
    end_time := 2
    duration := 2
    source_text := ""
    target_text := "你"
    ref_audio_path := some "ref_0001.wav" }

/-- Second segment of the witness run (still attempted). -/
def segB : Segment :=
  { id := 2
    start_time := 3
    end_time := 4
    duration := 1
    source_text := ""
    target_text := "好"
    ref_audio_path := some "ref_0002.wav" }

/-- Witness: `segment_failure_isolated` on a concrete two-segment run
whose first synthesis raises. -/
theorem segment_failure_isolated_witness :
    (generateLoop genvFail [segA, segB]).length = [segA, segB].length ∧
    (∀ j, (generateLoop genvFail [segA, segB])[j]? =
      ([segA, segB][j]?).map
        (fun s => genStep genvFail s ([segA, segB].drop (j + 1)))) ∧
    ((generateLoop genvFail [segA, segB])[0]?).map (fun s => s.status) =
      some "error" ∧
    ((generateLoop genvFail [segA, segB])[0]?).map (fun s => s.error_msg) =
      some (some "CUDA out of memory") ∧
    processLoop penvOk [segA, segB] = [segA, segB].map (procStep penvOk) ∧
    (∀ (env : String → Nat → ℚ) (totalDuration timeOffset : ℚ),
      singlePassMix env ((generateLoop genvFail [segA, segB]).filter
          (fun s => ¬ s.status = "error")) totalDuration timeOffset =
        singlePassMix env (generateLoop genvFail [segA, segB])
          totalDuration timeOffset) :=
  segment_failure_isolated genvFail penvOk [segA, segB] 0 segA
    "CUDA out of memory" rfl (by decide) (by decide) rfl
